import Mathlib

/-!
Verification of the JSON-RPC HTTP client library (package `jsonrpc`).

The development shallowly embeds the client code: the dynamically typed
JSON values handled by the decoder, the Go runtime values inspected by
the `Params` normalizer through reflection, the request/response model,
and the dispatch pipeline (`doCall` / `doBatchCall`) with the HTTP
transport abstracted as an oracle.  Effects that matter to the
specification — whether a request was serialized and whether the HTTP
transport was invoked — are made observable as an explicit event trace.
-/

set_option linter.unusedVariables false

namespace JsonRpc

/-- A decoded JSON value as the client produces it.  The decoder runs
with `UseNumber`, so a numeric literal is kept as its source text
(`json.Number` is a string); this is the precision-preserving
representation the Value Codec consumes. -/
inductive JsonValue where
  | null
  | bool (b : Bool)
  | num (text : String)
  | str (s : String)
  | arr (elems : List JsonValue)
  | obj (fields : List (String × JsonValue))

/-- The reflection kinds `Params` distinguishes (`reflect.Kind`). -/
inductive GoKind where
  | struct
  | array
  | slice
  | interface
  | map
  | ptr
  | int
  | float
  | string
  | bool
  | invalid
deriving DecidableEq

/-- A Go runtime value as seen through an `any` parameter: either the
nil interface, or a concrete value whose shape determines its
`reflect.Kind`.  Payloads are carried so that values can be serialized;
`Params` itself only inspects the shape. -/
inductive GoValue where
  | nilInterface
  | boolV (b : Bool)
  | intV (n : Int)
  | floatV (text : String)
  | stringV (s : String)
  | structV (fields : List (String × GoValue))
  | arrayV (elems : List GoValue)
  | sliceV (elems : List GoValue)
  | mapV (entries : List (String × GoValue))
  | ptrV (pointee : GoValue)

/-- `reflect.TypeOf(v).Kind()`: the kind of the dynamic type. -/
def GoValue.kind : GoValue → GoKind
  | .nilInterface => .invalid
  | .boolV _ => .bool
  | .intV _ => .int
  | .floatV _ => .float
  | .stringV _ => .string
  | .structV _ => .struct
  | .arrayV _ => .array
  | .sliceV _ => .slice
  | .mapV _ => .map
  | .ptrV _ => .ptr

/-- The pointer-dereference loop of `Params`
(`for t != nil && t.Kind() == reflect.Ptr { t = t.Elem() }`)
followed by `t.Kind()`. -/
def GoValue.baseKind : GoValue → GoKind
  | .ptrV v => v.baseKind
  | v => v.kind

/-- The `any` value `Params` returns: Go `nil` (so `params,omitempty`
drops the field), a single unwrapped value, or the variadic slice
itself. -/
inductive ParamsValue where
  | absent
  | single (v : GoValue)
  | list (vs : List GoValue)

/-- `Params` from the source: zero arguments yield nil; a single non-nil
argument is unwrapped when its (pointer-dereferenced) kind is struct,
array, slice, interface or map, and otherwise the slice is returned;
any other argument list is returned as the slice itself. -/
def Params (params : List GoValue) : ParamsValue :=
  match params with
  | [] => .absent
  | [p] =>
    match p with
    | .nilInterface => .list [p]
    | _ =>
      match p.baseKind with
      | .struct | .array | .slice | .interface | .map => .single p
      | _ => .list [p]
  | ps => .list ps

mutual

/-- `json.Marshal` on a Go value, restricted to the serializable shapes
modelled here (a nil interface marshals to JSON null, slices and arrays
to JSON arrays, structs and maps to JSON objects). -/
def GoValue.toJson : GoValue → JsonValue
  | .nilInterface => .null
  | .boolV b => .bool b
  | .intV n => .num (toString n)
  | .floatV t => .num t
  | .stringV s => .str s
  | .structV fs => .obj (goFieldsToJson fs)
  | .arrayV es => .arr (goListToJson es)
  | .sliceV es => .arr (goListToJson es)
  | .mapV es => .obj (goFieldsToJson es)
  | .ptrV v => GoValue.toJson v

/-- Serialize each element of a list of Go values. -/
def goListToJson : List GoValue → List JsonValue
  | [] => []
  | v :: vs => GoValue.toJson v :: goListToJson vs

/-- Serialize each field of a struct or map value. -/
def goFieldsToJson : List (String × GoValue) → List (String × JsonValue)
  | [] => []
  | (k, v) :: kvs => (k, GoValue.toJson v) :: goFieldsToJson kvs

end

/-- How a `ParamsValue` appears in the serialized request body:
`none` means the `params` member is omitted entirely. -/
def paramsJson : ParamsValue → Option JsonValue
  | .absent => none
  | .single v => some v.toJson
  | .list vs => some (.arr (goListToJson vs))

/-- `RPCError`: the protocol-level error envelope carried inside a
response body. -/
structure RPCError where
  code : Int
  message : String
  data : Option JsonValue

/-- `RPCRequest`: method, the `any`-typed params value produced by
`Params` (or set directly by a raw caller), and the integer id. -/
structure RPCRequest where
  method : String
  params : ParamsValue
  id : Int

/-- `RPCResponse` as decoded with `UseNumber`: the dynamically typed
result (an omitted `result` member decodes to the nil interface, here
`JsonValue.null`), the optional protocol error, and the id. -/
structure RPCResponse where
  result : JsonValue
  error : Option RPCError
  id : Int

/-- The client configuration fields that dispatch reads. -/
structure Client where
  endpoint : String
  allowUnknownFields : Bool
  defaultRequestID : Int

/-- Every way a call can fail, mirroring the error layering of the
library: request serialization failure, failure of the HTTP exchange
itself (`httpClient.Do`), response decode failure, a completed exchange
with status `≥ 400` (`HTTPError`), a protocol error promoted by the
convenience path (`resp.Error`), and the empty-batch rejection. -/
inductive CallError where
  | serializationError
  | transportFailure
  | decodeError
  | httpStatusError (code : Nat)
  | protocolError (e : RPCError)
  | emptyBatch

/-- Observable wire activity of one dispatch: `json.Marshal` being run
on a payload, and `httpClient.Do` being invoked with it. -/
inductive WireEvent where
  | serializeSingle (req : RPCRequest)
  | httpDoSingle (req : RPCRequest)
  | serializeBatch (reqs : List RPCRequest)
  | httpDoBatch (reqs : List RPCRequest)

/-- The environment's answer to one attempted exchange for a payload:
the marshaller may fail, `httpClient.Do` may fail, or an HTTP response
arrives with a status code and a body whose decode (under the client's
decoder flags) either fails or yields `β`. -/
inductive ExchangeOutcome (β : Type) where
  | marshalError
  | doError
  | ok (status : Nat) (decoded : Except Unit β)

/-- The transport oracle: what the environment (marshaller, HTTP stack
and server) does for a given single or batch payload.  A single body
may decode to a nil `*RPCResponse` (a literal `null` body), hence the
`Option`; a batch body decodes to a slice. -/
structure Transport where
  single : RPCRequest → ExchangeOutcome (Option RPCResponse)
  batch : List RPCRequest → ExchangeOutcome (List RPCResponse)

/-- Result of a single dispatch: the `*RPCResponse`, the Go error, and
the trace of wire activity. -/
structure SingleOut where
  resp : Option RPCResponse
  err : Option CallError
  trace : List WireEvent

/-- Result of a batch dispatch. -/
structure BatchOut where
  resps : Option (List RPCResponse)
  err : Option CallError
  trace : List WireEvent

/-- `doCall`: serialize the request; invoke the HTTP client; decode the
body; then — only after a successful decode — fail with `HTTPError`
when the status is `≥ 400`, returning the decoded body alongside. -/
def doCall (t : Transport) (req : RPCRequest) : SingleOut :=
  match t.single req with
  | .marshalError =>
      { resp := none, err := some .serializationError
        trace := [.serializeSingle req] }
  | .doError =>
      { resp := none, err := some .transportFailure
        trace := [.serializeSingle req, .httpDoSingle req] }
  | .ok status decoded =>
      match decoded with
      | .error _ =>
          { resp := none, err := some .decodeError
            trace := [.serializeSingle req, .httpDoSingle req] }
      | .ok resp =>
          if 400 ≤ status then
            { resp := resp, err := some (.httpStatusError status)
              trace := [.serializeSingle req, .httpDoSingle req] }
          else
            { resp := resp, err := none
              trace := [.serializeSingle req, .httpDoSingle req] }

/-- `doBatchCall`: the batch dispatch path, identical in structure to
`doCall` but for a request array and response slice. -/
def doBatchCall (t : Transport) (reqs : List RPCRequest) : BatchOut :=
  match t.batch reqs with
  | .marshalError =>
      { resps := none, err := some .serializationError
        trace := [.serializeBatch reqs] }
  | .doError =>
      { resps := none, err := some .transportFailure
        trace := [.serializeBatch reqs, .httpDoBatch reqs] }
  | .ok status decoded =>
      match decoded with
      | .error _ =>
          { resps := none, err := some .decodeError
            trace := [.serializeBatch reqs, .httpDoBatch reqs] }
      | .ok resps =>
          if 400 ≤ status then
            { resps := some resps, err := some (.httpStatusError status)
              trace := [.serializeBatch reqs, .httpDoBatch reqs] }
          else
            { resps := some resps, err := none
              trace := [.serializeBatch reqs, .httpDoBatch reqs] }

/-- The request `Call` constructs: the client's default id, the method,
and the normalized params. -/
def clientRequest (c : Client) (method : String) (params : List GoValue) :
    RPCRequest :=
  { id := c.defaultRequestID, method := method, params := Params params }

/-- `Call`: build the request, dispatch it, and promote a populated
protocol error of a non-nil decoded response into the returned Go
error (`return resp, resp.Error`).  On a dispatch error the response is
dropped (`return nil, err`). -/
def Call (t : Transport) (c : Client) (method : String)
    (params : List GoValue) : SingleOut :=
  let out := doCall t (clientRequest c method params)
  match out.err with
  | some err => { resp := none, err := some err, trace := out.trace }
  | none =>
      match out.resp with
      | some resp =>
          match resp.error with
          | some e =>
              { resp := some resp, err := some (.protocolError e)
                trace := out.trace }
          | none => { resp := some resp, err := none, trace := out.trace }
      | none => { resp := none, err := none, trace := out.trace }

/-- `CallRaw`: dispatch a caller-constructed request verbatim. -/
def CallRaw (t : Transport) (req : RPCRequest) : SingleOut :=
  doCall t req

/-- The id-rewriting loop of `CallBatch`
(`for i, req := range requests { req.ID = i }`), started at `i`. -/
def assignIDsFrom (i : Nat) : List RPCRequest → List RPCRequest
  | [] => []
  | r :: rs => { r with id := (i : Int) } :: assignIDsFrom (i + 1) rs

/-- `CallBatch`: reject an empty list, rewrite every id to its position,
then dispatch. -/
def CallBatch (t : Transport) (c : Client) (requests : List RPCRequest) :
    BatchOut :=
  if requests.length = 0 then
    { resps := none, err := some .emptyBatch, trace := [] }
  else
    doBatchCall t (assignIDsFrom 0 requests)

/-- `CallBatchRaw`: reject an empty list and dispatch the requests
untouched. -/
def CallBatchRaw (t : Transport) (c : Client) (requests : List RPCRequest) :
    BatchOut :=
  if requests.length = 0 then
    { resps := none, err := some .emptyBatch, trace := [] }
  else
    doBatchCall t requests

/-- One decimal digit of a numeric literal, as `strconv` reads it. -/
def digitVal (c : Char) : Option Nat :=
  if c.isDigit then some (c.toNat - 48) else none

/-- The accumulating digit scan of `strconv.ParseInt` (base 10): fold
the remaining characters into the value, failing on any non-digit. -/
def parseDigitsAux : Option Nat → List Char → Option Nat
  | acc, [] => acc
  | acc, c :: cs =>
      match acc, digitVal c with
      | some n, some d => parseDigitsAux (some (n * 10 + d)) cs
      | _, _ => none

/-- Smallest value of Go's `int64`. -/
def int64Min : Int := -(2 ^ 63)

/-- Largest value of Go's `int64`. -/
def int64Max : Int := 2 ^ 63 - 1

/-- `json.Number.Int64`, i.e. `strconv.ParseInt(string(n), 10, 64)`:
an optional sign followed by at least one decimal digit, with the value
required to fit in `int64`; anything else (empty text, a bare sign, a
non-digit character such as the `.` or `e` of a non-integer literal, or
an out-of-range value) is an error. -/
def parseInt64 (s : String) : Option Int :=
  match s.data with
  | [] => none
  | c :: cs =>
      if c = '-' then
        if cs.length = 0 then none
        else
          match parseDigitsAux (some 0) cs with
          | some n => if int64Min ≤ -(n : Int) then some (-(n : Int)) else none
          | none => none
      else if c = '+' then
        if cs.length = 0 then none
        else
          match parseDigitsAux (some 0) cs with
          | some n => if (n : Int) ≤ int64Max then some (n : Int) else none
          | none => none
      else
        match parseDigitsAux (some 0) (c :: cs) with
        | some n => if (n : Int) ≤ int64Max then some (n : Int) else none
        | none => none

/-- `GetInt`: assert that the decoded result is a preserved numeric
literal (`json.Number`) and convert its text to `int64`. -/
def GetInt (r : RPCResponse) : Except String Int :=
  match r.result with
  | .num s =>
      match parseInt64 s with
      | some v => .ok v
      | none => .error "parse int error"
  | _ => .error "invalid int"

/-- `GetBool`: assert that the decoded result is a boolean. -/
def GetBool (r : RPCResponse) : Except String Bool :=
  match r.result with
  | .bool b => .ok b
  | _ => .error "invalid bool"

/-- `GetString`: assert that the decoded result is a string. -/
def GetString (r : RPCResponse) : Except String String :=
  match r.result with
  | .str s => .ok s
  | _ => .error "invalid string"

/-- `AsMap`: build a Go map from id to response by inserting each
response in slice order; a later insert for the same id overwrites the
earlier one.  The map is modelled as its lookup function. -/
def AsMap (res : List RPCResponse) : Int → Option RPCResponse :=
  res.foldl (fun m r => fun key => if key = r.id then some r else m key)
    (fun _ => none)

/-- `GetByID`: scan the slice in order for the first response whose id
matches, returning nil when none does. -/
def GetByID : List RPCResponse → Int → Option RPCResponse
  | [], _ => none
  | r :: rs, id => if r.id = id then some r else GetByID rs id

/-- `HasError`: whether some response in the slice carries a populated
protocol error. -/
def HasError : List RPCResponse → Bool
  | [] => false
  | r :: rs =>
      match r.error with
      | some _ => true
      | none => HasError rs

/-- `GetObject`: re-serialize the result and unmarshal it into the
caller's target.  The unmarshalling step is abstracted as a function
from the result's JSON value and the current target to the new target
(`none` meaning the unmarshal failed, leaving the target as it was). -/
def GetObject {σ : Type} (unmarshal : JsonValue → σ → Option σ)
    (r : RPCResponse) (target : σ) : σ × Option CallError :=
  match unmarshal r.result target with
  | some t => (t, none)
  | none => (target, some .serializationError)

/-- `CallFor`: run `Call`; on any error return it with the target left
untouched; otherwise unmarshal the result into the target.  When `Call`
returns neither an error nor a response (a literal `null` body), the Go
code dereferences a nil `*RPCResponse`; that panic is modelled as
`none`. -/
def CallFor {σ : Type} (unmarshal : JsonValue → σ → Option σ)
    (t : Transport) (c : Client) (target : σ) (method : String)
    (params : List GoValue) : Option (σ × Option CallError) :=
  let out := Call t c method params
  match out.err with
  | some e => some (target, some e)
  | none =>
      match out.resp with
      | some resp => some (GetObject unmarshal resp target)
      | none => none

/-- C1: `Params` obeys the full case analysis: zero arguments give the
absent value (omitted, not null); one argument of struct, array, slice
or map shape is returned unwrapped; one argument of scalar shape
(number, string, boolean) is wrapped in a one-element list; two or more
arguments are returned as the list itself, in call order. -/
theorem params_case_analysis :
    Params [] = .absent
    ∧ (∀ v : GoValue,
        (v.baseKind = .struct ∨ v.baseKind = .array ∨ v.baseKind = .slice ∨
          v.baseKind = .map) → Params [v] = .single v)
    ∧ (∀ v : GoValue,
        (v.baseKind = .int ∨ v.baseKind = .float ∨ v.baseKind = .string ∨
          v.baseKind = .bool) → Params [v] = .list [v])
    ∧ (∀ vs : List GoValue, 2 ≤ vs.length → Params vs = .list vs) := by
  refine ⟨rfl, ?_, ?_, ?_⟩
  · intro v h
    cases v <;> rcases h with h | h | h | h <;>
      simp_all [Params, GoValue.baseKind, GoValue.kind]
  · intro v h
    cases v <;> rcases h with h | h | h | h <;>
      simp_all [Params, GoValue.baseKind, GoValue.kind]
  · intro vs h
    match vs with
    | [] => simp at h
    | [v] => simp at h
    | v₁ :: v₂ :: rest => rfl

/-- Witness for C1 at concrete inputs of each shape. -/
theorem params_case_analysis_witness :
    Params [] = .absent
    ∧ Params [GoValue.structV []] = .single (GoValue.structV [])
    ∧ Params [GoValue.intV 5] = .list [GoValue.intV 5]
    ∧ Params [GoValue.intV 5, GoValue.stringV "x"] =
        .list [GoValue.intV 5, GoValue.stringV "x"] :=
  ⟨params_case_analysis.1,
   params_case_analysis.2.1 (GoValue.structV []) (Or.inl rfl),
   params_case_analysis.2.2.1 (GoValue.intV 5) (Or.inl rfl),
   params_case_analysis.2.2.2 [GoValue.intV 5, GoValue.stringV "x"]
     (by simp)⟩

/-- C9: a single nil argument does not hit the unwrap branch and is not
treated as zero arguments: `Params` returns the one-element slice
containing the nil interface, which serializes as the array `[null]`. -/
theorem params_single_nil :
    Params [GoValue.nilInterface] = .list [GoValue.nilInterface]
    ∧ paramsJson (Params [GoValue.nilInterface]) =
        some (JsonValue.arr [JsonValue.null]) := by
  refine ⟨rfl, ?_⟩
  simp [Params, paramsJson, goListToJson, GoValue.toJson]

/-- C6: a batch call on the empty request list fails with the
empty-batch error and produces no wire activity at all: nothing is
serialized and the HTTP transport is never invoked, for any transport
and any client. -/
theorem empty_batch_no_exchange :
    ∀ (t : Transport) (c : Client),
      CallBatch t c [] =
        { resps := none, err := some .emptyBatch, trace := [] }
      ∧ CallBatchRaw t c [] =
        { resps := none, err := some .emptyBatch, trace := [] } :=
  fun t c => ⟨rfl, rfl⟩

/-- The Go-map insertion fold of `AsMap`, with an arbitrary starting
map: the lookup is the last matching response, i.e. the first match in
the reversed slice, falling back to the starting map. -/
theorem asMap_foldl (res : List RPCResponse) (m : Int → Option RPCResponse)
    (k : Int) :
    (res.foldl (fun m r => fun key => if key = r.id then some r else m key) m) k
      = ((res.reverse.find? (fun r => r.id == k)).or (m k)) := by
  induction res generalizing m with
  | nil => rfl
  | cons r rs ih =>
      simp only [List.foldl_cons, List.reverse_cons]
      rw [ih, List.find?_append]
      cases hf : rs.reverse.find? (fun r => r.id == k) with
      | some x => simp
      | none =>
          simp only [Option.none_or]
          rw [List.find?_cons]
          by_cases h : r.id = k
          · simp [h]
          · have hb : (r.id == k) = false := by
              simp [h]
            have hk : ¬ k = r.id := fun hkk => h hkk.symm
            simp [hb, hk]

/-- C8: `AsMap` looks up the last response in sequence order carrying
the requested id (so on duplicate ids the later response wins), while
`GetByID` returns the first response in sequence order with that id and
reports not-found (`none`) when no response carries it. -/
theorem asMap_getByID_spec (res : List RPCResponse) (id : Int) :
    AsMap res id = res.reverse.find? (fun r => r.id == id)
    ∧ GetByID res id = res.find? (fun r => r.id == id)
    ∧ ((∀ r ∈ res, r.id ≠ id) → GetByID res id = none) := by
  have hfind : GetByID res id = res.find? (fun r => r.id == id) := by
    induction res with
    | nil => rfl
    | cons r rs ih =>
        rw [List.find?_cons]
        by_cases h : r.id = id
        · simp [GetByID, h]
        · have hb : (r.id == id) = false := by
            simp [h]
          simp [GetByID, h, hb, ih]
  refine ⟨?_, hfind, ?_⟩
  · have := asMap_foldl res (fun _ => none) id
    simpa [AsMap] using this
  · intro hall
    rw [hfind, List.find?_eq_none]
    intro x hx
    simp [hall x hx]

/-- Witness for C8: on a two-response batch sharing id 1 the later
response wins in `AsMap`, and `GetByID` reports not-found for the
missing id 2. -/
theorem asMap_getByID_spec_witness :
    AsMap
        [{ result := .str "first", error := none, id := 1 },
         { result := .str "second", error := none, id := 1 }] 1
      = some { result := .str "second", error := none, id := 1 }
    ∧ GetByID
        [{ result := .str "first", error := none, id := 1 },
         { result := .str "second", error := none, id := 1 }] 2
      = none :=
  ⟨(asMap_getByID_spec
      [{ result := .str "first", error := none, id := 1 },
       { result := .str "second", error := none, id := 1 }] 1).1.trans rfl,
   (asMap_getByID_spec
      [{ result := .str "first", error := none, id := 1 },
       { result := .str "second", error := none, id := 1 }] 2).2.2
     (by intro r hr; simp only [List.mem_cons, List.not_mem_nil] at hr
         rcases hr with h | h | h <;> simp_all)⟩

/-- The ids produced by the rewriting loop started at `i` are the
consecutive integers `i, i+1, …`. -/
theorem assignIDsFrom_map_id (i : Nat) (reqs : List RPCRequest) :
    (assignIDsFrom i reqs).map (fun r => r.id)
      = (List.range' i reqs.length).map Int.ofNat := by
  induction reqs generalizing i with
  | nil => rfl
  | cons r rs ih =>
      simp [assignIDsFrom, List.range'_succ, ih]

/-- The rewriting loop touches only the id field: methods and params
are preserved elementwise. -/
theorem assignIDsFrom_preserves (i : Nat) (reqs : List RPCRequest) :
    (assignIDsFrom i reqs).map (fun r => (r.method, r.params))
      = reqs.map (fun r => (r.method, r.params)) := by
  induction reqs generalizing i with
  | nil => rfl
  | cons r rs ih => simp [assignIDsFrom, ih]

/-- C3: on a non-empty request list, `CallBatch` dispatches exactly the
id-rewritten list whose ids are `0..n-1` in list order (hence unique),
with every method and params value untouched, while `CallBatchRaw`
dispatches the caller's list unchanged. -/
theorem callBatch_assigns_sequential_ids (t : Transport) (c : Client)
    (reqs : List RPCRequest) (h : reqs ≠ []) :
    CallBatch t c reqs = doBatchCall t (assignIDsFrom 0 reqs)
    ∧ (assignIDsFrom 0 reqs).map (fun r => r.id)
        = (List.range reqs.length).map Int.ofNat
    ∧ ((assignIDsFrom 0 reqs).map (fun r => r.id)).Nodup
    ∧ (assignIDsFrom 0 reqs).map (fun r => (r.method, r.params))
        = reqs.map (fun r => (r.method, r.params))
    ∧ CallBatchRaw t c reqs = doBatchCall t reqs := by
  have hlen : ¬ reqs.length = 0 := fun hl => h (List.length_eq_zero.mp hl)
  refine ⟨?_, ?_, ?_, assignIDsFrom_preserves 0 reqs, ?_⟩
  · simp [CallBatch, hlen]
  · rw [assignIDsFrom_map_id, List.range_eq_range']
  · rw [assignIDsFrom_map_id]
    exact (List.nodup_range' 0 reqs.length).map
      fun a b hab => Int.ofNat_inj.mp hab
  · simp [CallBatchRaw, hlen]

/-- Witness for C3: two requests with caller-set ids 7 and 9 are
dispatched with ids 0 and 1. -/
theorem callBatch_assigns_sequential_ids_witness :
    ([{ method := "a", params := .absent, id := 7 },
      { method := "b", params := .absent, id := 9 }] ≠ ([] : List RPCRequest))
    ∧ (assignIDsFrom 0
        [{ method := "a", params := .absent, id := 7 },
         { method := "b", params := .absent, id := 9 }]).map (fun r => r.id)
      = [0, 1] :=
  ⟨List.cons_ne_nil _ _,
   ((callBatch_assigns_sequential_ids
      { single := fun _ => .doError, batch := fun _ => .doError }
      { endpoint := "e", allowUnknownFields := false, defaultRequestID := 0 }
      [{ method := "a", params := .absent, id := 7 },
       { method := "b", params := .absent, id := 9 }]
      (List.cons_ne_nil _ _)).2.1).trans rfl⟩

/-- C2: when the exchange for the request `Call` builds completes with a
success status and decodes to a response carrying a populated protocol
error, `Call` returns that protocol error as its non-nil error (with
the response alongside), whereas `CallRaw` on the same request returns
a nil error and the response with its `Error` field populated. -/
theorem call_promotes_protocol_error (t : Transport) (c : Client)
    (method : String) (params : List GoValue) (status : Nat)
    (resp : RPCResponse) (e : RPCError)
    (hdis : t.single (clientRequest c method params)
      = .ok status (.ok (some resp)))
    (hstatus : status < 400)
    (herr : resp.error = some e) :
    (Call t c method params).resp = some resp
    ∧ (Call t c method params).err = some (.protocolError e)
    ∧ (CallRaw t (clientRequest c method params)).resp = some resp
    ∧ (CallRaw t (clientRequest c method params)).err = none := by
  have hlt : ¬ 400 ≤ status := by omega
  refine ⟨?_, ?_, ?_, ?_⟩ <;>
    simp [Call, CallRaw, doCall, hdis, hlt, herr]

/-- A concrete protocol error used by the C2 witness. -/
def badError : RPCError :=
  { code := -32600, message := "bad", data := none }

/-- A concrete response carrying `badError`. -/
def badResponse : RPCResponse :=
  { result := .null, error := some badError, id := 0 }

/-- A transport answering every single call with status 200 and the
error-carrying body `badResponse`. -/
def errorBodyTransport : Transport :=
  { single := fun _ => .ok 200 (.ok (some badResponse))
    batch := fun _ => .doError }

/-- A concrete client configuration. -/
def demoClient : Client :=
  { endpoint := "http://localhost", allowUnknownFields := false
    defaultRequestID := 0 }

/-- Witness for C2 on a concrete transport answering with status 200
and an error body. -/
theorem call_promotes_protocol_error_witness :
    (errorBodyTransport.single (clientRequest demoClient "m" [])
      = .ok 200 (.ok (some badResponse)))
    ∧ (Call errorBodyTransport demoClient "m" []).err
      = some (.protocolError badError) :=
  ⟨rfl,
   (call_promotes_protocol_error errorBodyTransport demoClient "m" [] 200
      badResponse badError rfl (by omega) rfl).2.1⟩

/-- C4: when the HTTP exchange completes with status `≥ 400` and the
body decoded successfully, the dispatch (single and batch alike) fails
with the HTTP-status error carrying that code while still returning the
decoded body alongside the non-nil error. -/
theorem http_status_error_with_body (t : Transport) (req : RPCRequest)
    (reqs : List RPCRequest) (status : Nat) (body : Option RPCResponse)
    (bodies : List RPCResponse)
    (h1 : t.single req = .ok status (.ok body))
    (h2 : t.batch reqs = .ok status (.ok bodies))
    (hs : 400 ≤ status) :
    (doCall t req).resp = body
    ∧ (doCall t req).err = some (.httpStatusError status)
    ∧ (doBatchCall t reqs).resps = some bodies
    ∧ (doBatchCall t reqs).err = some (.httpStatusError status) := by
  refine ⟨?_, ?_, ?_, ?_⟩ <;> simp [doCall, doBatchCall, h1, h2, hs]

/-- A plain decodable response body used by the C4 witness. -/
def plainResponse : RPCResponse :=
  { result := .null, error := none, id := 0 }

/-- A transport answering every exchange with HTTP 500 and a decodable
body. -/
def status500Transport : Transport :=
  { single := fun _ => .ok 500 (.ok (some plainResponse))
    batch := fun _ => .ok 500 (.ok [plainResponse]) }

/-- A concrete request used by the C4 witness. -/
def demoRequest : RPCRequest :=
  { method := "m", params := .absent, id := 0 }

/-- Witness for C4: an HTTP 500 whose single body decodes to a response
and whose batch body decodes to a one-element slice yields the status
error together with the decoded bodies. -/
theorem http_status_error_with_body_witness :
    (400 ≤ 500)
    ∧ (doCall status500Transport demoRequest).err
      = some (.httpStatusError 500)
    ∧ (doBatchCall status500Transport [demoRequest]).resps
      = some [plainResponse] :=
  ⟨by omega,
   (http_status_error_with_body status500Transport demoRequest [demoRequest]
      500 (some plainResponse) [plainResponse] rfl rfl (by omega)).2.1,
   (http_status_error_with_body status500Transport demoRequest [demoRequest]
      500 (some plainResponse) [plainResponse] rfl rfl (by omega)).2.2.1⟩

/-- A transport whose batch exchange succeeds with status 200 and a
body containing one error-carrying response. -/
def batchErrorTransport : Transport :=
  { single := fun _ => .doError
    batch := fun _ => .ok 200 (.ok [badResponse]) }

/-- C7 counterexample: a successful batch exchange whose decoded slice
contains a response with a populated protocol error, on which
`CallBatch` nevertheless returns a nil error — the convenience path of
`CallBatch` does not surface protocol errors as a call failure. -/
theorem callBatch_no_promotion_cex :
    (batchErrorTransport.batch (assignIDsFrom 0 [demoRequest])
      = .ok 200 (.ok [badResponse]))
    ∧ (CallBatch batchErrorTransport demoClient [demoRequest]).resps
      = some [badResponse]
    ∧ badResponse.error = some badError
    ∧ (CallBatch batchErrorTransport demoClient [demoRequest]).err = none :=
  ⟨rfl, rfl, rfl, rfl⟩

/-- `HasError` is exactly "some response in the slice carries a
populated protocol error". -/
theorem hasError_iff (resps : List RPCResponse) :
    HasError resps = true ↔ ∃ r ∈ resps, r.error ≠ none := by
  induction resps with
  | nil => simp [HasError]
  | cons r rs ih =>
      cases hr : r.error with
      | some e =>
          simp only [HasError, hr, List.mem_cons]
          constructor
          · intro _
            exact ⟨r, Or.inl rfl, by simp [hr]⟩
          · intro _
            trivial
      | none =>
          simp only [HasError, hr, List.mem_cons]
          rw [ih]
          constructor
          · rintro ⟨x, hx, hxe⟩
            exact ⟨x, Or.inr hx, hxe⟩
          · rintro ⟨x, hx, hxe⟩
            rcases hx with rfl | hx
            · exact absurd hr hxe
            · exact ⟨x, hx, hxe⟩

/-- C7 amended: on a non-empty batch whose HTTP exchange succeeds with
a success status and a decoded slice, `CallBatch` returns a nil error
even when some decoded response carries a populated protocol error — it
returns the slice and leaves every protocol error for caller inspection
(reported by `HasError`), exactly as `CallBatchRaw` does. -/
theorem callBatch_leaves_protocol_errors (t : Transport) (c : Client)
    (reqs : List RPCRequest) (status : Nat) (resps : List RPCResponse)
    (hne : reqs ≠ [])
    (hex : t.batch (assignIDsFrom 0 reqs) = .ok status (.ok resps))
    (hst : status < 400) :
    (CallBatch t c reqs).err = none
    ∧ (CallBatch t c reqs).resps = some resps
    ∧ (HasError resps = true ↔ ∃ r ∈ resps, r.error ≠ none) := by
  have hlen : ¬ reqs.length = 0 := fun hl => hne (List.length_eq_zero.mp hl)
  have hlt : ¬ 400 ≤ status := by omega
  exact ⟨by simp [CallBatch, doBatchCall, hlen, hex, hlt],
         by simp [CallBatch, doBatchCall, hlen, hex, hlt],
         hasError_iff resps⟩

/-- Witness for C7's amended statement at the counterexample's
transport: the batch error stays unpromoted and `HasError` reports
it. -/
theorem callBatch_leaves_protocol_errors_witness :
    (batchErrorTransport.batch (assignIDsFrom 0 [demoRequest])
      = .ok 200 (.ok [badResponse]))
    ∧ (CallBatch batchErrorTransport demoClient [demoRequest]).err = none
    ∧ HasError [badResponse] = true :=
  ⟨rfl,
   (callBatch_leaves_protocol_errors batchErrorTransport demoClient
      [demoRequest] 200 [badResponse] (List.cons_ne_nil _ _) rfl
      (by omega)).1,
   rfl⟩

/-- A transport on which every exchange fails at the HTTP layer. -/
def failTransport : Transport :=
  { single := fun _ => .doError, batch := fun _ => .doError }

/-- C10: whenever the inner `Call` returns a non-nil error, `CallFor`
returns that same error and the caller-supplied target is returned
completely unchanged — unmarshalling into the target is attempted only
when `Call` succeeds. -/
theorem callFor_error_leaves_target {σ : Type}
    (unmarshal : JsonValue → σ → Option σ) (t : Transport) (c : Client)
    (target : σ) (method : String) (params : List GoValue) (e : CallError)
    (h : (Call t c method params).err = some e) :
    CallFor unmarshal t c target method params = some (target, some e) := by
  simp [CallFor, h]

/-- Witness for C10: a transport failure propagates through `CallFor`
and leaves the target `0` untouched even though the unmarshaller would
have changed it. -/
theorem callFor_error_leaves_target_witness :
    ((Call failTransport demoClient "m" []).err = some .transportFailure)
    ∧ CallFor (fun _ n => some (n + 1)) failTransport demoClient (0 : Nat)
        "m" [] = some (0, some .transportFailure) :=
  ⟨rfl,
   callFor_error_leaves_target (fun _ n => some (n + 1)) failTransport
     demoClient 0 "m" [] .transportFailure rfl⟩

/-- The mathematical integer denoted by a most-significant-first list
of decimal digit characters (the standard positional sum). -/
def decimalValue : List Char → Nat
  | [] => 0
  | c :: cs => (c.toNat - 48) * 10 ^ cs.length + decimalValue cs

/-- A decimal digit character is not a sign character. -/
theorem isDigit_ne_sign (c : Char) (h : c.isDigit = true) :
    c ≠ '-' ∧ c ≠ '+' := by
  constructor <;> rintro rfl <;> revert h <;> decide

/-- The accumulating scan computes the positional value: on an
all-digit suffix it shifts the accumulator past the suffix and adds the
suffix's value. -/
theorem parseDigitsAux_digits (cs : List Char) (a : Nat)
    (h : ∀ c ∈ cs, c.isDigit = true) :
    parseDigitsAux (some a) cs
      = some (a * 10 ^ cs.length + decimalValue cs) := by
  induction cs generalizing a with
  | nil => simp [parseDigitsAux, decimalValue]
  | cons c cs ih =>
      have hc : c.isDigit = true := h c (List.mem_cons_self c cs)
      have hd : digitVal c = some (c.toNat - 48) := by simp [digitVal, hc]
      have hrest : ∀ x ∈ cs, x.isDigit = true :=
        fun x hx => h x (List.mem_cons_of_mem c hx)
      have step : parseDigitsAux (some a) (c :: cs)
          = parseDigitsAux (some (a * 10 + (c.toNat - 48))) cs := by
        simp [parseDigitsAux, hd]
      rw [step, ih (a * 10 + (c.toNat - 48)) hrest]
      congr 1
      simp [decimalValue]
      ring

/-- `parseInt64` on a non-empty all-digit text (as `json.Number` holds
for an unsigned integer literal): it succeeds with the denoted value
exactly when that value fits in `int64`, and fails otherwise. -/
theorem parseInt64_digits (ds : List Char) (hne : ds ≠ [])
    (hd : ∀ c ∈ ds, c.isDigit = true) :
    parseInt64 (String.mk ds)
      = if (decimalValue ds : Int) ≤ int64Max
          then some ((decimalValue ds : Int)) else none := by
  match ds, hne with
  | c :: cs, _ =>
      have hc : c.isDigit = true := hd c (List.mem_cons_self c cs)
      obtain ⟨h1, h2⟩ := isDigit_ne_sign c hc
      have hp := parseDigitsAux_digits (c :: cs) 0 hd
      rw [show (0 : Nat) * 10 ^ (c :: cs).length + decimalValue (c :: cs)
            = decimalValue (c :: cs) by ring] at hp
      simp only [parseInt64, h1, h2, if_false]
      rw [hp]

/-- C5: `GetInt` on a precision-preserved numeric result returns the
exact integer the literal denotes whenever it fits in a signed 64-bit
integer — in particular `9223372036854775807` comes back exactly — and
fails when the result is not numeric or its text denotes an integer out
of `int64` range. -/
theorem getInt_exact :
    (∀ (r : RPCResponse) (ds : List Char),
        r.result = .num (String.mk ds) → ds ≠ [] →
        (∀ c ∈ ds, c.isDigit = true) →
        (decimalValue ds : Int) ≤ int64Max →
        GetInt r = .ok ((decimalValue ds : Int)))
    ∧ GetInt { result := .num "9223372036854775807", error := none, id := 1 }
        = .ok 9223372036854775807
    ∧ (∀ r : RPCResponse, (∀ s, r.result ≠ .num s) →
        GetInt r = .error "invalid int")
    ∧ (∀ (r : RPCResponse) (ds : List Char),
        r.result = .num (String.mk ds) → ds ≠ [] →
        (∀ c ∈ ds, c.isDigit = true) →
        int64Max < (decimalValue ds : Int) →
        GetInt r = .error "parse int error") := by
  refine ⟨?_, ?_, ?_, ?_⟩
  · intro r ds hres hne hdig hle
    have hp := parseInt64_digits ds hne hdig
    simp [GetInt, hres, hp, hle]
  · rfl
  · intro r h
    cases hr : r.result with
    | num s => exact absurd hr (h s)
    | null => simp [GetInt, hr]
    | bool b => simp [GetInt, hr]
    | str s => simp [GetInt, hr]
    | arr es => simp [GetInt, hr]
    | obj fs => simp [GetInt, hr]
  · intro r ds hres hne hdig hgt
    have hp := parseInt64_digits ds hne hdig
    have hnle : ¬ (decimalValue ds : Int) ≤ int64Max := by omega
    simp [GetInt, hres, hp, hnle]

/-- Witness for C5: a two-digit literal parses exactly, the maximal
`int64` literal parses exactly, a boolean result is rejected, and the
literal one past the maximum is rejected as out of range. -/
theorem getInt_exact_witness :
    GetInt { result := .num (String.mk ['9', '7']), error := none, id := 1 }
      = .ok 97
    ∧ GetInt { result := .num "9223372036854775807", error := none, id := 1 }
        = .ok 9223372036854775807
    ∧ GetInt { result := .bool true, error := none, id := 1 }
        = .error "invalid int"
    ∧ GetInt
        { result := .num (String.mk
            ['9', '2', '2', '3', '3', '7', '2', '0', '3', '6', '8', '5',
             '4', '7', '7', '5', '8', '0', '8'])
          error := none, id := 1 }
        = .error "parse int error" :=
  ⟨getInt_exact.1
      { result := .num (String.mk ['9', '7']), error := none, id := 1 }
      ['9', '7'] rfl (by decide) (by decide) (by decide),
   getInt_exact.2.1,
   getInt_exact.2.2.1 { result := .bool true, error := none, id := 1 }
     (fun s h => JsonValue.noConfusion h),
   getInt_exact.2.2.2
     { result := .num (String.mk
         ['9', '2', '2', '3', '3', '7', '2', '0', '3', '6', '8', '5',
          '4', '7', '7', '5', '8', '0', '8'])
       error := none, id := 1 }
     ['9', '2', '2', '3', '3', '7', '2', '0', '3', '6', '8', '5',
      '4', '7', '7', '5', '8', '0', '8']
     rfl (by decide) (by decide) (by decide)⟩

end JsonRpc
